import Mathlib

/-!
Shallow embedding of `check.py`, a black-box conformance checker for CLI
programs: it runs a child command, feeds a decoded input string to its stdin,
captures stdout/stderr and the exit code, and judges pass/fail by regex-searching
stdout (optionally also requiring a zero child exit code).

Modelling conventions:
* Pure Python functions become Lean functions; the child process behaviour
  (normal exit / timeout / executable not found) is an explicit `ChildOutcome`
  parameter, since it is the environment's choice, not the program's.
* The regex pattern of `re.search` is represented by the pair of the raw CLI
  text (`Args.regexText`, printed by the failure report) and its parsed
  abstract syntax tree (`Regex`, used by the matcher); `re.compile` is a
  library call outside the program.  `re.IGNORECASE` is modelled with ASCII
  case folding (`Char.toLower`), and flag integers keep CPython's bit values
  (IGNORECASE = 2, DOTALL = 16).
* `print(x)` becomes one entry of a list of lines for the corresponding
  stream; `main`'s `return n` becomes the `exitCode` field.
* The `--input` decoding `args.input.encode("utf-8").decode("unicode_escape")`
  is modelled byte-exactly: UTF-8 encoding to a byte list, then CPython's
  unicode-escape decoder (non-escape bytes pass through as Latin-1 code
  points; `\N{...}` named escapes and lone-surrogate `\u` escapes are the one
  part left out, modelled as a decode failure).
* Python floats (the timeout) are modelled as `Rat`; the timeout value is only
  ever carried around and interpolated into a message, never computed with.
-/

namespace Check

/-! ### Regex abstract syntax and flags -/

/-- CPython's `re.IGNORECASE` flag bit. -/
def RE_IGNORECASE : Nat := 2

/-- CPython's `re.DOTALL` flag bit. -/
def RE_DOTALL : Nat := 16

/-- Whether the DOTALL bit (value 16) is set in a flag word. -/
def dotallSet (flags : Nat) : Bool := flags.testBit 4

/-- Whether the IGNORECASE bit (value 2) is set in a flag word. -/
def ignorecaseSet (flags : Nat) : Bool := flags.testBit 1

/-- Abstract syntax of the regex patterns fed to `re.search`: the regular
operators plus the `.` wildcard, whose meaning depends on the DOTALL flag. -/
inductive Regex : Type where
  | emptyset : Regex
  | epsilon : Regex
  | chr : Char → Regex
  | dot : Regex
  | alt : Regex → Regex → Regex
  | cat : Regex → Regex → Regex
  | star : Regex → Regex
deriving DecidableEq, Repr

/-- The regex denoted by a literal pattern string (no metacharacters). -/
def Regex.lit (s : String) : Regex :=
  s.data.foldr (fun c r => Regex.cat (Regex.chr c) r) Regex.epsilon

/-- Whether pattern character `pc` matches subject character `c`; IGNORECASE
compares ASCII-lowercased characters. -/
def charOK (flags : Nat) (pc c : Char) : Bool :=
  if ignorecaseSet flags then pc.toLower == c.toLower else pc == c

/-- Whether `.` matches subject character `c`: everything except a newline,
unless DOTALL is set. -/
def dotOK (flags : Nat) (c : Char) : Bool :=
  dotallSet flags || c != '\n'

/-- Whether a regex accepts the empty string. -/
def nullable : Regex → Bool
  | .emptyset => false
  | .epsilon => true
  | .chr _ => false
  | .dot => false
  | .alt r₁ r₂ => nullable r₁ || nullable r₂
  | .cat r₁ r₂ => nullable r₁ && nullable r₂
  | .star _ => true

/-- Brzozowski derivative of a regex with respect to one subject character. -/
def deriv (fl : Nat) (c : Char) : Regex → Regex
  | .emptyset => .emptyset
  | .epsilon => .emptyset
  | .chr pc => if charOK fl pc c then .epsilon else .emptyset
  | .dot => if dotOK fl c then .epsilon else .emptyset
  | .alt r₁ r₂ => .alt (deriv fl c r₁) (deriv fl c r₂)
  | .cat r₁ r₂ =>
      if nullable r₁ then .alt (.cat (deriv fl c r₁) r₂) (deriv fl c r₂)
      else .cat (deriv fl c r₁) r₂
  | .star r => .cat (deriv fl c r) (.star r)

/-- Anchored matcher: does `r` match exactly the whole character list? -/
def rmatch (fl : Nat) : Regex → List Char → Bool
  | r, [] => nullable r
  | r, c :: s => rmatch fl (deriv fl c r) s

/-- Unanchored search, the semantics of `re.search`: does `r` match some
contiguous (possibly empty) segment of the character list? -/
def re_search (fl : Nat) (r : Regex) (s : List Char) : Bool :=
  s.tails.any fun suf => suf.inits.any fun seg => rmatch fl r seg

/-- Embedding of `stdout_matches` (check.py line 58): `re.search` on the
captured stdout, with the pattern given as its parsed form. -/
def stdout_matches (stdout : String) (pattern : Regex) (flags : Nat) : Bool :=
  re_search flags pattern stdout.data

/-- Declarative matching semantics of a regex, independent of the derivative
implementation. -/
inductive RMatches (fl : Nat) : Regex → List Char → Prop where
  | eps : RMatches fl .epsilon []
  | chr {pc c : Char} : charOK fl pc c = true → RMatches fl (.chr pc) [c]
  | dot {c : Char} : dotOK fl c = true → RMatches fl .dot [c]
  | altL {r₁ r₂ : Regex} {s : List Char} :
      RMatches fl r₁ s → RMatches fl (.alt r₁ r₂) s
  | altR {r₁ r₂ : Regex} {s : List Char} :
      RMatches fl r₂ s → RMatches fl (.alt r₁ r₂) s
  | cat {r₁ r₂ : Regex} {s₁ s₂ : List Char} :
      RMatches fl r₁ s₁ → RMatches fl r₂ s₂ → RMatches fl (.cat r₁ r₂) (s₁ ++ s₂)
  | starNil {r : Regex} : RMatches fl (.star r) []
  | starCat {r : Regex} {s₁ s₂ : List Char} :
      RMatches fl r s₁ → RMatches fl (.star r) s₂ →
      RMatches fl (.star r) (s₁ ++ s₂)

/-! ### The `--input` escape decoding (check.py line 109)

`args.input.encode("utf-8").decode("unicode_escape")`: the input string is
first encoded to UTF-8 bytes, and that byte string is then decoded with
CPython's unicode-escape codec, which turns literal escape sequences into the
characters they denote and passes every other byte through as the Latin-1
code point of the same value. -/

/-- UTF-8 encoding of one Unicode code point (1 to 4 bytes). -/
def utf8EncodeCodepoint (n : Nat) : List Nat :=
  if n < 0x80 then [n]
  else if n < 0x800 then [0xC0 + n / 64, 0x80 + n % 64]
  else if n < 0x10000 then [0xE0 + n / 4096, 0x80 + n / 64 % 64, 0x80 + n % 64]
  else [0xF0 + n / 262144, 0x80 + n / 4096 % 64, 0x80 + n / 64 % 64, 0x80 + n % 64]

/-- `str.encode("utf-8")`: the UTF-8 byte string of a text. -/
def utf8Encode (s : String) : List Nat :=
  s.data.foldr (fun c acc => utf8EncodeCodepoint c.toNat ++ acc) []

/-- The two-character escape sequences of the unicode-escape codec: the byte
after a backslash, mapped to the code point it denotes. -/
def escTable (e : Nat) : Option Nat :=
  if e = 0x6E then some 0x0A
  else if e = 0x74 then some 0x09
  else if e = 0x72 then some 0x0D
  else if e = 0x5C then some 0x5C
  else if e = 0x27 then some 0x27
  else if e = 0x22 then some 0x22
  else if e = 0x61 then some 0x07
  else if e = 0x62 then some 0x08
  else if e = 0x66 then some 0x0C
  else if e = 0x76 then some 0x0B
  else none

/-- Is the byte an octal digit? -/
def isOct (b : Nat) : Bool := 0x30 ≤ b && b ≤ 0x37

/-- Value of an octal digit byte. -/
def octVal (b : Nat) : Nat := b - 0x30

/-- Is the byte a hexadecimal digit? -/
def isHex (b : Nat) : Bool :=
  (0x30 ≤ b && b ≤ 0x39) || (0x61 ≤ b && b ≤ 0x66) || (0x41 ≤ b && b ≤ 0x46)

/-- Value of a hexadecimal digit byte. -/
def hexVal (b : Nat) : Nat :=
  if 0x30 ≤ b && b ≤ 0x39 then b - 0x30
  else if 0x61 ≤ b && b ≤ 0x66 then b - 0x61 + 10
  else b - 0x41 + 10

/-- Read at most one further octal digit of an octal escape. -/
def readOct1 (v : Nat) : List Nat → Nat × List Nat
  | [] => (v, [])
  | b :: l => if isOct b then (v * 8 + octVal b, l) else (v, b :: l)

/-- Read at most two further octal digits of an octal escape. -/
def readOct2 (v : Nat) : List Nat → Nat × List Nat
  | [] => (v, [])
  | b :: l => if isOct b then readOct1 (v * 8 + octVal b) l else (v, b :: l)

/-- Read exactly `k` hexadecimal digits, most significant first, accumulating
into `acc`; fails if a non-hex byte (or the end of input) is hit. -/
def readHexAcc (acc : Nat) : Nat → List Nat → Option (Nat × List Nat)
  | 0, l => some (acc, l)
  | _ + 1, [] => none
  | k + 1, b :: l => if isHex b then readHexAcc (acc * 16 + hexVal b) k l else none

/-- CPython's unicode-escape decoder over a byte string, producing the list of
decoded code points, or `none` on a malformed escape (a lone trailing
backslash, a short hex escape, an out-of-range eight-digit escape; named
escapes after backslash-N are not modelled).  A byte that is not part of an
escape sequence passes through as the Latin-1 code point of the same value, a
backslash before a newline byte consumes both, octal escapes take up to three
digits, and an unknown escape keeps the backslash and the following byte. -/
def unicodeEscapeBytes : List Nat → Option (List Nat)
  | [] => some []
  | b :: l =>
    if b = 0x5C then
      match l with
      | [] => none
      | e :: l1 =>
        match escTable e with
        | some v => (fun t => v :: t) <$> unicodeEscapeBytes l1
        | none =>
          if e = 0x0A then unicodeEscapeBytes l1
          else if isOct e then
            (fun t => (readOct2 (octVal e) l1).1 :: t) <$>
              unicodeEscapeBytes (readOct2 (octVal e) l1).2
          else if e = 0x78 then
            match hx : readHexAcc 0 2 l1 with
            | none => none
            | some p => (fun t => p.1 :: t) <$> unicodeEscapeBytes p.2
          else if e = 0x75 then
            match hx : readHexAcc 0 4 l1 with
            | none => none
            | some p => (fun t => p.1 :: t) <$> unicodeEscapeBytes p.2
          else if e = 0x55 then
            match hx : readHexAcc 0 8 l1 with
            | none => none
            | some p =>
              if p.1 ≤ 0x10FFFF then (fun t => p.1 :: t) <$> unicodeEscapeBytes p.2
              else none
          else if e = 0x4E then none
          else (fun t => 0x5C :: e :: t) <$> unicodeEscapeBytes l1
    else (fun t => b :: t) <$> unicodeEscapeBytes l
termination_by l => l.length

decreasing_by
  all_goals simp_wf
  all_goals (first
    | omega
    | (have h1 : (readOct2 (octVal b) l).2.length ≤ l.length := by
         have haux : ∀ v2 l2, (readOct1 v2 l2).2.length ≤ l2.length := by
           intro v2 l2
           cases l2 with
           | nil => simp [readOct1]
           | cons b3 l3 =>
             rw [readOct1]
             by_cases h3 : isOct b3 = true
             · simp [h3]
             · simp [h3]
         cases l with
         | nil => simp [readOct2]
         | cons b2 l2 =>
           rw [readOct2]
           by_cases h2 : isOct b2 = true
           · rw [if_pos h2]
             exact Nat.le_succ_of_le (haux _ l2)
           · simp [h2]
       omega)
    | (have key : ∀ k acc l2 p, readHexAcc acc k l2 = some p → p.2.length ≤ l2.length := by
         intro k
         induction k with
         | zero =>
           intro acc l2 p h
           rw [readHexAcc] at h
           injection h with h
           subst h
           exact Nat.le_refl _
         | succ k ih =>
           intro acc l2 p h
           cases l2 with
           | nil => exact absurd h (by rw [readHexAcc]; simp)
           | cons b2 l3 =>
             rw [readHexAcc] at h
             by_cases hb : isHex b2 = true
             · rw [if_pos hb] at h
               exact Nat.le_succ_of_le (ih _ _ _ h)
             · rw [if_neg hb] at h
               exact absurd h (by simp)
       have h1 := key _ _ _ _ hx
       omega))

/-- Is a code point representable as a `Char` (not a surrogate, in range)? -/
def isValidCodepoint (n : Nat) : Bool := n < 0xD800 || (0xE000 ≤ n && n < 0x110000)

/-- Embedding of `args.input.encode("utf-8").decode("unicode_escape")`
(check.py line 109): UTF-8 bytes of the input, decoded by the unicode-escape
codec; `none` models the uncaught decoding exception. -/
def unicode_escape_decode (s : String) : Option String :=
  (unicodeEscapeBytes (utf8Encode s)).bind fun cps =>
    if cps.all isValidCodepoint then some ⟨cps.map Char.ofNat⟩ else none

/-! ### The process runner `run_java` (check.py lines 17 to 55) -/

/-- Result record of one child-process run (check.py lines 9 to 14). -/
structure RunResult where
  ok : Bool
  returncode : Int
  stdout : String
  stderr : String
deriving DecidableEq, Repr

/-- How the child process behaved: this is the environment's contribution to a
run.  `completed` carries the child's exit code and captured streams;
`timedOut` carries the partial streams held by `subprocess.TimeoutExpired`
(`none` when the attribute is absent or `None`); `notFound` carries the text of
the `FileNotFoundError`. -/
inductive ChildOutcome : Type where
  | completed (returncode : Int) (stdout stderr : String)
  | timedOut (pOut pErr : Option String)
  | notFound (msg : String)
deriving DecidableEq, Repr

/-- Python's `getattr(e, "stdout", "") or ""`: a missing or empty partial
stream becomes the empty string. -/
def orEmpty : Option String → String
  | none => ""
  | some s => s

/-- Embedding of `run_java` (check.py lines 17 to 55): build a `RunResult`
from the child's behaviour.  Normal completion records `ok = (returncode ==
0)` and the captured streams; a timeout is caught and mapped to exit code 124
with a message naming the timeout; a `FileNotFoundError` is caught and mapped
to exit code 127 with a descriptive message. -/
def run_java (java_cmd : List String) (stdin_text : String) (timeout_s : Rat)
    (outcome : ChildOutcome) : RunResult :=
  match outcome with
  | .completed rc out err =>
      { ok := rc == 0, returncode := rc, stdout := out, stderr := err }
  | .timedOut pOut pErr =>
      { ok := false, returncode := 124, stdout := orEmpty pOut,
        stderr := "Timed out after " ++ toString timeout_s ++ "s\n" ++ orEmpty pErr }
  | .notFound msg =>
      { ok := false, returncode := 127, stdout := "",
        stderr := "Command not found: " ++ msg }

/-! ### `main` after argument parsing (check.py lines 107 to 140) -/

/-- The configuration produced by the argument parser: the command tokens, the
raw `--input` and `--regex` values, the parsed form of the regex, the timeout,
and the four boolean flags. -/
structure Args where
  cmd : List String
  input : String
  regexText : String
  regex : Regex
  timeout : Rat
  dotall : Bool
  ignorecase : Bool
  require_zero_exit : Bool
  verbose : Bool

/-- The regex flag word built by check.py lines 111 to 115: start from 0, OR
in DOTALL and IGNORECASE as requested. -/
def mkFlags (dotall ignorecase : Bool) : Nat :=
  let flags : Nat := 0
  let flags := if dotall then flags ||| RE_DOTALL else flags
  let flags := if ignorecase then flags ||| RE_IGNORECASE else flags
  flags

/-- What a run of the tool produces: the process exit code (`main`'s return
value), the lines printed to the primary output stream, and the lines printed
to the diagnostic stream. -/
structure MainOutput where
  exitCode : Nat
  outLines : List String
  errLines : List String
deriving DecidableEq, Repr

/-- Embedding of `main` after `ap.parse_args()` (check.py lines 109 to 140):
decode the input (`none` models the uncaught decode error), build the flag
word, run the child, optionally echo stdout, then decide among the three
terminal outcomes: exit 2 when `--require-zero-exit` is set and the child
exited nonzero, else exit 0 with `PASS` when the regex search succeeds, else
exit 1. -/
def main_after_parse (args : Args) (outcome : ChildOutcome) : Option MainOutput :=
  match unicode_escape_decode args.input with
  | none => none
  | some stdin_text =>
    let flags := mkFlags args.dotall args.ignorecase
    let rr := run_java args.cmd stdin_text args.timeout outcome
    let vLines := if args.verbose then [rr.stdout] else []
    if args.require_zero_exit && rr.returncode != 0 then
      some { exitCode := 2, outLines := vLines,
             errLines := ["FAIL: Java program returned non-zero exit code.",
                          "Return code: " ++ toString rr.returncode,
                          "--- stderr ---", rr.stderr,
                          "--- stdout ---", rr.stdout] }
    else if stdout_matches rr.stdout args.regex flags then
      some { exitCode := 0, outLines := vLines ++ ["PASS"], errLines := [] }
    else
      some { exitCode := 1, outLines := vLines,
             errLines := ["FAIL: stdout did not match regex.",
                          "Regex: " ++ args.regexText,
                          "--- stdout ---", rr.stdout,
                          "--- stderr ---", rr.stderr] }

/-! ### Concrete fixtures used by witnesses and counterexamples -/

/-- A configuration with `--require-zero-exit` set (`--cmd java Main --input ""
--regex OK`). -/
def argsReq : Args :=
  { cmd := ["java", "Main"], input := "", regexText := "OK", regex := Regex.lit "OK",
    timeout := 2, dotall := false, ignorecase := false, require_zero_exit := true,
    verbose := false }

/-- The same configuration without `--require-zero-exit`. -/
def argsNoReq : Args :=
  { cmd := ["java", "Main"], input := "", regexText := "OK", regex := Regex.lit "OK",
    timeout := 2, dotall := false, ignorecase := false, require_zero_exit := false,
    verbose := false }

/-! ### Theorems: the regex matcher -/

theorem emptyset_rmatch (fl : Nat) (s : List Char) :
    rmatch fl .emptyset s = false := by
  induction s with
  | nil => rfl
  | cons c s ih => simpa [rmatch, deriv] using ih

theorem epsilon_rmatch_iff (fl : Nat) (s : List Char) :
    rmatch fl .epsilon s = true ↔ s = [] := by
  cases s with
  | nil => simp [rmatch, nullable]
  | cons c s => simp [rmatch, deriv, emptyset_rmatch]

theorem chr_rmatch_iff (fl : Nat) (pc : Char) (s : List Char) :
    rmatch fl (.chr pc) s = true ↔ ∃ c, s = [c] ∧ charOK fl pc c = true := by
  cases s with
  | nil => simp [rmatch, nullable]
  | cons c s =>
    rw [rmatch]
    unfold deriv
    by_cases h : charOK fl pc c = true
    · rw [if_pos h, epsilon_rmatch_iff]
      constructor
      · rintro rfl; exact ⟨c, rfl, h⟩
      · rintro ⟨c', hc, _⟩
        injection hc
    · rw [if_neg h, emptyset_rmatch]
      constructor
      · intro hf; exact absurd hf (by simp)
      · rintro ⟨c', hc, hok⟩
        injection hc with h1 h2
        subst h1
        exact absurd hok h

theorem dot_rmatch_iff (fl : Nat) (s : List Char) :
    rmatch fl .dot s = true ↔ ∃ c, s = [c] ∧ dotOK fl c = true := by
  cases s with
  | nil => simp [rmatch, nullable]
  | cons c s =>
    rw [rmatch]
    unfold deriv
    by_cases h : dotOK fl c = true
    · rw [if_pos h, epsilon_rmatch_iff]
      constructor
      · rintro rfl; exact ⟨c, rfl, h⟩
      · rintro ⟨c', hc, _⟩
        injection hc
    · rw [if_neg h, emptyset_rmatch]
      constructor
      · intro hf; exact absurd hf (by simp)
      · rintro ⟨c', hc, hok⟩
        injection hc with h1 h2
        subst h1
        exact absurd hok h

theorem alt_rmatch (fl : Nat) (r₁ r₂ : Regex) (s : List Char) :
    rmatch fl (.alt r₁ r₂) s = (rmatch fl r₁ s || rmatch fl r₂ s) := by
  induction s generalizing r₁ r₂ with
  | nil => rfl
  | cons c s ih => rw [rmatch, deriv, ih, rmatch, rmatch]

theorem cat_rmatch_iff (fl : Nat) (r₁ r₂ : Regex) (s : List Char) :
    rmatch fl (.cat r₁ r₂) s = true ↔
      ∃ t u, s = t ++ u ∧ rmatch fl r₁ t = true ∧ rmatch fl r₂ u = true := by
  induction s generalizing r₁ r₂ with
  | nil =>
    rw [rmatch]
    show (nullable r₁ && nullable r₂) = true ↔ _
    rw [Bool.and_eq_true]
    constructor
    · rintro ⟨h₁, h₂⟩
      exact ⟨[], [], rfl, h₁, h₂⟩
    · rintro ⟨t, u, htu, h₁, h₂⟩
      obtain ⟨rfl, rfl⟩ := List.append_eq_nil.mp htu.symm
      exact ⟨h₁, h₂⟩
  | cons c s ih =>
    rw [rmatch]
    unfold deriv
    by_cases hn : nullable r₁ = true
    · rw [if_pos hn, alt_rmatch, Bool.or_eq_true, ih]
      constructor
      · rintro (⟨t, u, rfl, h₁, h₂⟩ | h₂)
        · exact ⟨c :: t, u, rfl, h₁, h₂⟩
        · exact ⟨[], c :: s, rfl, hn, h₂⟩
      · rintro ⟨t, u, htu, h₁, h₂⟩
        cases t with
        | nil =>
          right
          simp only [List.nil_append] at htu
          rw [← htu] at h₂
          exact h₂
        | cons b t =>
          left
          rw [List.cons_append] at htu
          injection htu with hb ht
          subst hb
          exact ⟨t, u, ht, h₁, h₂⟩
    · rw [if_neg hn, ih]
      constructor
      · rintro ⟨t, u, rfl, h₁, h₂⟩
        exact ⟨c :: t, u, rfl, h₁, h₂⟩
      · rintro ⟨t, u, htu, h₁, h₂⟩
        cases t with
        | nil =>
          rw [rmatch] at h₁
          exact absurd h₁ (by simp [hn])
        | cons b t =>
          rw [List.cons_append] at htu
          injection htu with hb ht
          subst hb
          exact ⟨t, u, ht, h₁, h₂⟩

theorem star_rmatch_iff (fl : Nat) (r : Regex) : ∀ s : List Char,
    rmatch fl (.star r) s = true ↔
      ∃ S : List (List Char), s = S.flatten ∧
        ∀ t ∈ S, t ≠ [] ∧ rmatch fl r t = true := fun s => by
  have IH := fun t (h' : t.length < s.length) => star_rmatch_iff fl r t
  clear star_rmatch_iff
  constructor
  · cases s with
    | nil => intro _h; exact ⟨[], rfl, by simp⟩
    | cons c s =>
      rw [rmatch]
      unfold deriv
      rw [cat_rmatch_iff]
      rintro ⟨t, u, hs, ht, hu⟩
      have hlen : u.length < (c :: s).length := by
        rw [List.length_cons, hs, List.length_append]
        omega
      rw [IH u hlen] at hu
      obtain ⟨S, rfl, hS⟩ := hu
      refine ⟨(c :: t) :: S, by simp [hs], ?_⟩
      intro t' ht'
      rcases List.mem_cons.mp ht' with rfl | hmem
      · exact ⟨by simp, by rw [rmatch]; exact ht⟩
      · exact hS t' hmem
  · rintro ⟨S, rfl, hS⟩
    cases hSnil : S with
    | nil => subst hSnil; simp [rmatch, nullable]
    | cons t U =>
      subst hSnil
      obtain ⟨hne, hmt⟩ := hS t (List.mem_cons_self t U)
      cases ht : t with
      | nil => exact absurd ht hne
      | cons c t' =>
        subst ht
        show rmatch fl (.star r) (c :: (t' ++ U.flatten)) = true
        rw [rmatch]
        unfold deriv
        rw [cat_rmatch_iff]
        refine ⟨t', U.flatten, rfl, ?_, ?_⟩
        · rw [rmatch] at hmt
          exact hmt
        · have hlen : U.flatten.length < (c :: (t' ++ U.flatten)).length := by
            simp [List.length_append]
            omega
          rw [IH U.flatten hlen]
          exact ⟨U, rfl, fun t'' h'' => hS t'' (List.mem_cons_of_mem _ h'')⟩
termination_by s => s.length

theorem RMatches_emptyset (fl : Nat) (s : List Char) :
    ¬ RMatches fl .emptyset s := fun h => nomatch h

theorem RMatches_epsilon_iff (fl : Nat) (s : List Char) :
    RMatches fl .epsilon s ↔ s = [] := by
  constructor
  · intro h; cases h; rfl
  · rintro rfl; exact .eps

theorem RMatches_chr_iff (fl : Nat) (pc : Char) (s : List Char) :
    RMatches fl (.chr pc) s ↔ ∃ c, s = [c] ∧ charOK fl pc c = true := by
  constructor
  · intro h
    cases h with
    | chr hok => exact ⟨_, rfl, hok⟩
  · rintro ⟨c, rfl, hok⟩
    exact .chr hok

theorem RMatches_dot_iff (fl : Nat) (s : List Char) :
    RMatches fl .dot s ↔ ∃ c, s = [c] ∧ dotOK fl c = true := by
  constructor
  · intro h
    cases h with
    | dot hok => exact ⟨_, rfl, hok⟩
  · rintro ⟨c, rfl, hok⟩
    exact .dot hok

theorem RMatches_alt_iff (fl : Nat) (r₁ r₂ : Regex) (s : List Char) :
    RMatches fl (.alt r₁ r₂) s ↔ RMatches fl r₁ s ∨ RMatches fl r₂ s := by
  constructor
  · intro h
    cases h with
    | altL h => exact Or.inl h
    | altR h => exact Or.inr h
  · rintro (h | h)
    · exact .altL h
    · exact .altR h

theorem RMatches_cat_iff (fl : Nat) (r₁ r₂ : Regex) (s : List Char) :
    RMatches fl (.cat r₁ r₂) s ↔
      ∃ t u, s = t ++ u ∧ RMatches fl r₁ t ∧ RMatches fl r₂ u := by
  constructor
  · intro h
    cases h with
    | cat h₁ h₂ => exact ⟨_, _, rfl, h₁, h₂⟩
  · rintro ⟨t, u, rfl, h₁, h₂⟩
    exact .cat h₁ h₂

theorem RMatches_star_aux (fl : Nat) {r' : Regex} {s : List Char}
    (h : RMatches fl r' s) :
    ∀ r, r' = .star r →
      ∃ S : List (List Char), s = S.flatten ∧ ∀ t ∈ S, t ≠ [] ∧ RMatches fl r t := by
  induction h with
  | eps => exact fun r hr => Regex.noConfusion hr
  | chr _ => exact fun r hr => Regex.noConfusion hr
  | dot _ => exact fun r hr => Regex.noConfusion hr
  | altL _ _ => exact fun r hr => Regex.noConfusion hr
  | altR _ _ => exact fun r hr => Regex.noConfusion hr
  | cat _ _ _ _ => exact fun r hr => Regex.noConfusion hr
  | starNil => exact fun r _ => ⟨[], rfl, by simp⟩
  | @starCat r₀ s₁ s₂ h₁ h₂ ih₁ ih₂ =>
    intro r hr
    injection hr with hr
    subst hr
    obtain ⟨S₂, rfl, hS₂⟩ := ih₂ _ rfl
    cases hs₁ : s₁ with
    | nil => subst hs₁; exact ⟨S₂, rfl, hS₂⟩
    | cons c t =>
      subst hs₁
      refine ⟨(c :: t) :: S₂, rfl, ?_⟩
      intro t' ht'
      rcases List.mem_cons.mp ht' with rfl | hmem
      · exact ⟨by simp, h₁⟩
      · exact hS₂ t' hmem

theorem RMatches_star_iff (fl : Nat) (r : Regex) (s : List Char) :
    RMatches fl (.star r) s ↔
      ∃ S : List (List Char), s = S.flatten ∧ ∀ t ∈ S, t ≠ [] ∧ RMatches fl r t := by
  constructor
  · intro h
    exact RMatches_star_aux fl h r rfl
  · rintro ⟨S, rfl, hS⟩
    induction S with
    | nil => exact .starNil
    | cons t U ih =>
      show RMatches fl (.star r) (t ++ U.flatten)
      exact .starCat (hS t (List.mem_cons_self t U)).2
        (ih fun t' h' => hS t' (List.mem_cons_of_mem _ h'))

/-- The derivative-based matcher agrees with the declarative semantics. -/
theorem rmatch_iff (fl : Nat) (r : Regex) : ∀ s : List Char,
    rmatch fl r s = true ↔ RMatches fl r s := by
  induction r with
  | emptyset =>
    intro s
    rw [emptyset_rmatch]
    simp only [Bool.false_eq_true, false_iff]
    exact RMatches_emptyset fl s
  | epsilon => intro s; rw [epsilon_rmatch_iff, RMatches_epsilon_iff]
  | chr pc => intro s; rw [chr_rmatch_iff, RMatches_chr_iff]
  | dot => intro s; rw [dot_rmatch_iff, RMatches_dot_iff]
  | alt r₁ r₂ ih₁ ih₂ =>
    intro s
    rw [alt_rmatch, Bool.or_eq_true, RMatches_alt_iff, ih₁, ih₂]
  | cat r₁ r₂ ih₁ ih₂ =>
    intro s
    rw [cat_rmatch_iff, RMatches_cat_iff]
    constructor
    · rintro ⟨t, u, rfl, h₁, h₂⟩
      exact ⟨t, u, rfl, (ih₁ t).mp h₁, (ih₂ u).mp h₂⟩
    · rintro ⟨t, u, rfl, h₁, h₂⟩
      exact ⟨t, u, rfl, (ih₁ t).mpr h₁, (ih₂ u).mpr h₂⟩
  | star r ih =>
    intro s
    rw [star_rmatch_iff, RMatches_star_iff]
    constructor
    · rintro ⟨S, rfl, hS⟩
      exact ⟨S, rfl, fun t ht => ⟨(hS t ht).1, (ih t).mp (hS t ht).2⟩⟩
    · rintro ⟨S, rfl, hS⟩
      exact ⟨S, rfl, fun t ht => ⟨(hS t ht).1, (ih t).mpr (hS t ht).2⟩⟩

/-- Unanchored search succeeds exactly when the pattern matches some contiguous
segment of the subject. -/
theorem re_search_iff (fl : Nat) (r : Regex) (s : List Char) :
    re_search fl r s = true ↔
      ∃ pre seg post, s = pre ++ seg ++ post ∧ rmatch fl r seg = true := by
  unfold re_search
  rw [List.any_eq_true]
  constructor
  · rintro ⟨suf, hsuf, hany⟩
    rw [List.any_eq_true] at hany
    obtain ⟨seg, hseg, hr⟩ := hany
    rw [List.mem_tails] at hsuf
    obtain ⟨pre, hpre⟩ := hsuf
    rw [List.mem_inits] at hseg
    obtain ⟨post, hpost⟩ := hseg
    refine ⟨pre, seg, post, ?_, hr⟩
    rw [List.append_assoc, hpost, hpre]
  · rintro ⟨pre, seg, post, rfl, hm⟩
    refine ⟨seg ++ post, ?_, ?_⟩
    · rw [List.mem_tails]
      exact ⟨pre, by rw [List.append_assoc]⟩
    · rw [List.any_eq_true]
      exact ⟨seg, by rw [List.mem_inits]; exact ⟨post, rfl⟩, hm⟩

/-! ### Theorems: unfolding the unicode-escape decoder -/

theorem unicodeEscapeBytes_nil : unicodeEscapeBytes [] = some [] := by
  rw [unicodeEscapeBytes]

theorem unicodeEscapeBytes_plain (b : Nat) (l : List Nat) (hb : ¬ b = 0x5C) :
    unicodeEscapeBytes (b :: l) = (fun t => b :: t) <$> unicodeEscapeBytes l := by
  rw [unicodeEscapeBytes.eq_def]
  simp [hb]

theorem unicodeEscapeBytes_esc (e v : Nat) (l : List Nat) (he : escTable e = some v) :
    unicodeEscapeBytes (0x5C :: e :: l) = (fun t => v :: t) <$> unicodeEscapeBytes l := by
  rw [unicodeEscapeBytes.eq_def]
  simp [he]

theorem unicode_escape_decode_empty : unicode_escape_decode "" = some "" := by
  have h : utf8Encode "" = [] := rfl
  rw [unicode_escape_decode, h, unicodeEscapeBytes_nil]
  rfl

/-! ### Theorems: the reporter's three terminal outcomes -/

theorem main_exit2_of_nonzero (args : Args) (outcome : ChildOutcome) (stdin_text : String)
    (hdec : unicode_escape_decode args.input = some stdin_text)
    (hreq : args.require_zero_exit = true)
    (hrc : (run_java args.cmd stdin_text args.timeout outcome).returncode ≠ 0) :
    main_after_parse args outcome =
      some { exitCode := 2,
             outLines := if args.verbose
               then [(run_java args.cmd stdin_text args.timeout outcome).stdout] else [],
             errLines := ["FAIL: Java program returned non-zero exit code.",
               "Return code: " ++
                 toString (run_java args.cmd stdin_text args.timeout outcome).returncode,
               "--- stderr ---", (run_java args.cmd stdin_text args.timeout outcome).stderr,
               "--- stdout ---", (run_java args.cmd stdin_text args.timeout outcome).stdout] } := by
  unfold main_after_parse
  rw [hdec]
  simp [hreq, hrc]

theorem main_fail_of_no_match (args : Args) (outcome : ChildOutcome) (stdin_text : String)
    (hdec : unicode_escape_decode args.input = some stdin_text)
    (hbranch : ¬(args.require_zero_exit = true ∧
      (run_java args.cmd stdin_text args.timeout outcome).returncode ≠ 0))
    (hmatch : stdout_matches (run_java args.cmd stdin_text args.timeout outcome).stdout
      args.regex (mkFlags args.dotall args.ignorecase) = false) :
    main_after_parse args outcome =
      some { exitCode := 1,
             outLines := if args.verbose
               then [(run_java args.cmd stdin_text args.timeout outcome).stdout] else [],
             errLines := ["FAIL: stdout did not match regex.",
               "Regex: " ++ args.regexText,
               "--- stdout ---", (run_java args.cmd stdin_text args.timeout outcome).stdout,
               "--- stderr ---", (run_java args.cmd stdin_text args.timeout outcome).stderr] } := by
  unfold main_after_parse
  rw [hdec]
  have hcond : (args.require_zero_exit &&
      (run_java args.cmd stdin_text args.timeout outcome).returncode != 0) = false := by
    rw [Bool.and_eq_false_iff]
    by_cases hq : args.require_zero_exit = true
    · right
      rw [bne_eq_false_iff_eq]
      by_contra hne
      exact hbranch ⟨hq, hne⟩
    · left
      exact Bool.not_eq_true _ |>.mp hq
  simp [hcond, hmatch]

/-! ### The claims -/

/-- C1: in every run where `--require-zero-exit` was set and the captured child
exit code is nonzero, the tool emits the failure report whose reason names the
non-zero exit code, printing the exit code, stderr and stdout to the
diagnostic stream, and the tool's own exit code is 2 — for every regex, so
regardless of whether the regex would have matched stdout. -/
theorem claim_C1 (args : Args) (outcome : ChildOutcome) (stdin_text : String)
    (hdec : unicode_escape_decode args.input = some stdin_text)
    (hreq : args.require_zero_exit = true)
    (hrc : (run_java args.cmd stdin_text args.timeout outcome).returncode ≠ 0) :
    main_after_parse args outcome =
      some { exitCode := 2,
             outLines := if args.verbose
               then [(run_java args.cmd stdin_text args.timeout outcome).stdout] else [],
             errLines := ["FAIL: Java program returned non-zero exit code.",
               "Return code: " ++
                 toString (run_java args.cmd stdin_text args.timeout outcome).returncode,
               "--- stderr ---", (run_java args.cmd stdin_text args.timeout outcome).stderr,
               "--- stdout ---", (run_java args.cmd stdin_text args.timeout outcome).stdout] } :=
  main_exit2_of_nonzero args outcome stdin_text hdec hreq hrc

/-- C1 witness: with `--require-zero-exit` set, a child that exits 3 with
stdout that would match the regex still yields tool exit code 2. -/
theorem claim_C1_witness :
    (main_after_parse argsReq (.completed 3 "OK" "boom")).map MainOutput.exitCode = some 2 := by
  rw [claim_C1 argsReq (.completed 3 "OK" "boom") "" unicode_escape_decode_empty rfl
    (by decide)]
  rfl

/-- C2: in every run where the require-zero-exit failure branch was not taken
and the matcher returns true on the captured stdout, the tool prints `PASS` to
the primary output stream and exits 0 — in particular this holds for a nonzero
child exit code as long as `--require-zero-exit` is not set. -/
theorem claim_C2 (args : Args) (outcome : ChildOutcome) (stdin_text : String)
    (hdec : unicode_escape_decode args.input = some stdin_text)
    (hbranch : ¬(args.require_zero_exit = true ∧
      (run_java args.cmd stdin_text args.timeout outcome).returncode ≠ 0))
    (hmatch : stdout_matches (run_java args.cmd stdin_text args.timeout outcome).stdout
      args.regex (mkFlags args.dotall args.ignorecase) = true) :
    main_after_parse args outcome =
      some { exitCode := 0,
             outLines := (if args.verbose
               then [(run_java args.cmd stdin_text args.timeout outcome).stdout] else []) ++
               ["PASS"],
             errLines := [] } := by
  unfold main_after_parse
  rw [hdec]
  have hcond : (args.require_zero_exit &&
      (run_java args.cmd stdin_text args.timeout outcome).returncode != 0) = false := by
    rw [Bool.and_eq_false_iff]
    by_cases hq : args.require_zero_exit = true
    · right
      rw [bne_eq_false_iff_eq]
      by_contra hne
      exact hbranch ⟨hq, hne⟩
    · left
      exact Bool.not_eq_true _ |>.mp hq
  simp [hcond, hmatch]

/-- C2 witness: without `--require-zero-exit`, a child that exits 5 but prints
matching stdout yields `PASS` and tool exit code 0. -/
theorem claim_C2_witness :
    (main_after_parse argsNoReq (.completed 5 "OK" "err5")).map MainOutput.exitCode = some 0 ∧
    (main_after_parse argsNoReq (.completed 5 "OK" "err5")).map MainOutput.outLines =
      some ["PASS"] := by
  rw [claim_C2 argsNoReq (.completed 5 "OK" "err5") "" unicode_escape_decode_empty
    (by decide) (by decide)]
  exact ⟨rfl, rfl⟩

/-- C3: in every run where the require-zero-exit failure branch was not taken
and the matcher returns false on the captured stdout, the tool emits the
failure report whose reason names the regex mismatch, printing the regex
pattern, stdout and stderr to the diagnostic stream, and exits 1. -/
theorem claim_C3 (args : Args) (outcome : ChildOutcome) (stdin_text : String)
    (hdec : unicode_escape_decode args.input = some stdin_text)
    (hbranch : ¬(args.require_zero_exit = true ∧
      (run_java args.cmd stdin_text args.timeout outcome).returncode ≠ 0))
    (hmatch : stdout_matches (run_java args.cmd stdin_text args.timeout outcome).stdout
      args.regex (mkFlags args.dotall args.ignorecase) = false) :
    main_after_parse args outcome =
      some { exitCode := 1,
             outLines := if args.verbose
               then [(run_java args.cmd stdin_text args.timeout outcome).stdout] else [],
             errLines := ["FAIL: stdout did not match regex.",
               "Regex: " ++ args.regexText,
               "--- stdout ---", (run_java args.cmd stdin_text args.timeout outcome).stdout,
               "--- stderr ---", (run_java args.cmd stdin_text args.timeout outcome).stderr] } :=
  main_fail_of_no_match args outcome stdin_text hdec hbranch hmatch

/-- C3 witness: a child that exits 0 with stdout not matching the regex yields
tool exit code 1. -/
theorem claim_C3_witness :
    (main_after_parse argsNoReq (.completed 0 "NOPE" "")).map MainOutput.exitCode = some 1 := by
  rw [claim_C3 argsNoReq (.completed 0 "NOPE" "") "" unicode_escape_decode_empty
    (by decide) (by decide)]
  rfl
/-- C4 counterexample: the claim "on a child timeout the tool's own exit code
is 124, and on a missing executable 127" is false: without
`--require-zero-exit` a timed-out run (empty partial stdout, regex `OK`) exits
1, not 124, and a missing executable also exits 1, not 127. -/
theorem claim_C4_counterexample :
    (main_after_parse argsNoReq (.timedOut none none)).map MainOutput.exitCode = some 1 ∧
    (main_after_parse argsNoReq (.timedOut none none)).map MainOutput.exitCode ≠ some 124 ∧
    (main_after_parse argsNoReq
      (.notFound "[Errno 2] No such file or directory")).map MainOutput.exitCode = some 1 ∧
    (main_after_parse argsNoReq
      (.notFound "[Errno 2] No such file or directory")).map MainOutput.exitCode ≠ some 127 := by
  have h1 := main_fail_of_no_match argsNoReq (.timedOut none none) ""
    unicode_escape_decode_empty (by decide) (by decide)
  have h2 := main_fail_of_no_match argsNoReq (.notFound "[Errno 2] No such file or directory") ""
    unicode_escape_decode_empty (by decide) (by decide)
  rw [h1, h2]
  exact ⟨rfl, by decide, rfl, by decide⟩

/-- C4 (amended): the exit codes 124 and 127 are the `returncode` of the
`RunResult` built by the Process Runner on a timeout and on a missing
executable, not the tool's own process exit code; the tool's exit code still
comes from the Reporter's three-way decision — in particular it is 2 in both
cases when `--require-zero-exit` is set, since 124 and 127 are nonzero. -/
theorem claim_C4 (args : Args) (stdin_text : String) (pOut pErr : Option String)
    (msg : String)
    (hdec : unicode_escape_decode args.input = some stdin_text)
    (hreq : args.require_zero_exit = true) :
    (run_java args.cmd stdin_text args.timeout (.timedOut pOut pErr)).returncode = 124 ∧
    (run_java args.cmd stdin_text args.timeout (.notFound msg)).returncode = 127 ∧
    (main_after_parse args (.timedOut pOut pErr)).map MainOutput.exitCode = some 2 ∧
    (main_after_parse args (.notFound msg)).map MainOutput.exitCode = some 2 := by
  refine ⟨rfl, rfl, ?_, ?_⟩
  · rw [main_exit2_of_nonzero args (.timedOut pOut pErr) stdin_text hdec hreq
      (by simp [run_java])]
    rfl
  · rw [main_exit2_of_nonzero args (.notFound msg) stdin_text hdec hreq
      (by simp [run_java])]
    rfl

/-- C4 witness: with `--require-zero-exit` set, a timed-out child run makes
the tool exit 2. -/
theorem claim_C4_witness :
    (main_after_parse argsReq (.timedOut none none)).map MainOutput.exitCode = some 2 :=
  (claim_C4 argsReq "" none none "m" unicode_escape_decode_empty rfl).2.2.1

/-- C5: a run that exceeds the timeout yields a `RunResult` with `ok = false`,
`returncode = 124`, a stderr text that is the timeout message naming the
elapsed timeout followed by the partial stderr captured at the kill, and the
partial stdout captured at the kill as its stdout. -/
theorem claim_C5 (java_cmd : List String) (stdin_text : String) (timeout_s : Rat)
    (pOut pErr : Option String) :
    (run_java java_cmd stdin_text timeout_s (.timedOut pOut pErr)).ok = false ∧
    (run_java java_cmd stdin_text timeout_s (.timedOut pOut pErr)).returncode = 124 ∧
    (run_java java_cmd stdin_text timeout_s (.timedOut pOut pErr)).stderr =
      "Timed out after " ++ toString timeout_s ++ "s\n" ++ orEmpty pErr ∧
    (run_java java_cmd stdin_text timeout_s (.timedOut pOut pErr)).stdout = orEmpty pOut :=
  ⟨rfl, rfl, rfl, rfl⟩

/-- C6: a run whose first command token cannot be launched yields a
`RunResult` with `ok = false`, `returncode = 127`, empty stdout, and a
descriptive command-not-found message as its stderr. -/
theorem claim_C6 (java_cmd : List String) (stdin_text : String) (timeout_s : Rat)
    (msg : String) :
    (run_java java_cmd stdin_text timeout_s (.notFound msg)).ok = false ∧
    (run_java java_cmd stdin_text timeout_s (.notFound msg)).returncode = 127 ∧
    (run_java java_cmd stdin_text timeout_s (.notFound msg)).stdout = "" ∧
    (run_java java_cmd stdin_text timeout_s (.notFound msg)).stderr =
      "Command not found: " ++ msg :=
  ⟨rfl, rfl, rfl, rfl⟩

/-- C7: the matcher returns true exactly when the pattern matches some
contiguous segment of the captured stdout — unanchored search semantics, not
full-string matching; in particular stdout `xxOKyy` with pattern `OK`
matches. -/
theorem claim_C7 :
    (∀ (out : String) (pat : Regex) (fl : Nat),
       stdout_matches out pat fl = true ↔
         ∃ pre seg post : List Char, out.data = pre ++ seg ++ post ∧ RMatches fl pat seg) ∧
    stdout_matches "xxOKyy" (Regex.lit "OK") 0 = true := by
  constructor
  · intro out pat fl
    unfold stdout_matches
    rw [re_search_iff]
    constructor
    · rintro ⟨pre, seg, post, h, hm⟩
      exact ⟨pre, seg, post, h, (rmatch_iff fl pat seg).mp hm⟩
    · rintro ⟨pre, seg, post, h, hm⟩
      exact ⟨pre, seg, post, h, (rmatch_iff fl pat seg).mpr hm⟩
  · decide

/-- C8: the `--input` decoding converts each two-character escape sequence in
the escape table (such as backslash-n and backslash-t) into the single
character it denotes, and the literal input `a\nb` (backslash-n written out)
decodes to the two-line text `a`, newline, `b`. -/
theorem claim_C8 :
    (∀ e v rest, escTable e = some v →
       unicodeEscapeBytes (0x5C :: e :: rest) =
         (fun t => v :: t) <$> unicodeEscapeBytes rest) ∧
    unicode_escape_decode "a\\nb" = some "a\nb" := by
  constructor
  · exact fun e v rest he => unicodeEscapeBytes_esc e v rest he
  · have h : utf8Encode "a\\nb" = [97, 92, 110, 98] := rfl
    unfold unicode_escape_decode
    rw [h, unicodeEscapeBytes_plain 97 _ (by decide),
      unicodeEscapeBytes_esc 110 10 _ (by decide),
      unicodeEscapeBytes_plain 98 _ (by decide),
      unicodeEscapeBytes_nil]
    rfl

/-- C8 witness: the escape-table clause of C8 at the concrete bytes of
backslash-n followed by `b`. -/
theorem claim_C8_witness : unicodeEscapeBytes [0x5C, 0x6E, 0x62] = some [0x0A, 0x62] := by
  rw [claim_C8.1 0x6E 0x0A [0x62] (by decide)]
  rw [unicodeEscapeBytes_plain 0x62 [] (by decide), unicodeEscapeBytes_nil]
  rfl

/-- C10: the decoding of `--input` is not confined to backslash escapes: there
is an input with non-ASCII characters and no backslash at all whose decoded
form differs from the input (the UTF-8 bytes are reinterpreted as Latin-1 by
the unicode-escape codec). -/
theorem claim_C10 :
    ∃ s : String, (∀ c ∈ s.data, c ≠ '\\') ∧ (∃ c ∈ s.data, 0x80 ≤ c.toNat) ∧
      unicode_escape_decode s ≠ some s := by
  refine ⟨"é", by decide, by decide, ?_⟩
  have h : utf8Encode "é" = [0xC3, 0xA9] := rfl
  unfold unicode_escape_decode
  rw [h, unicodeEscapeBytes_plain 0xC3 _ (by decide),
    unicodeEscapeBytes_plain 0xA9 _ (by decide),
    unicodeEscapeBytes_nil]
  decide

/-- C9: every `RunResult` the Process Runner produces, on any branch,
satisfies the invariant `ok = (returncode == 0)`. -/
theorem claim_C9 (java_cmd : List String) (stdin_text : String) (timeout_s : Rat)
    (outcome : ChildOutcome) :
    (run_java java_cmd stdin_text timeout_s outcome).ok =
      ((run_java java_cmd stdin_text timeout_s outcome).returncode == 0) := by
  cases outcome <;> rfl

end Check
